import Mathlib

/-!
# Verification of the SPI auto-answer question pipeline

Shallow embedding of the question-bank lookup (`excel_handler.py`), the
model-answer parsing and transport (`api_handler.py`) and the orchestrator's
trigger handler (`main.py`), with theorems checking the specification's
claims about them.

Conventions:
* Python strings are `String` / `List Char`; spreadsheet cells are
  `Option String` (`none` models a pandas `NaN`).
* Python floats are embedded as `ℚ` (the claims under check do not hinge on
  rounding of binary floating point).
* The third-party fuzzy string-similarity scorers (`fuzzywuzzy`) are external
  library code; they are embedded as a structure `Fuzz` of score functions
  bundled with the library's documented range guarantee, together with a
  concrete executable instance `fuzzInst` modelling the Levenshtein-backend
  ratio formula.
-/

namespace SpiAuto

/-! ## Character classes (Python `str.strip`, regex `\s`, `\w`) -/

/-- Whitespace in the sense of Python's `str.strip` / regex `\s`:
ASCII whitespace plus the Unicode space separators. -/
def isPySpace (c : Char) : Bool :=
  c == ' ' || c == '\t' || c == '\n' || c == '\r' ||
  c.toNat == 0x0B || c.toNat == 0x0C || c.toNat == 0x85 || c.toNat == 0xA0 ||
  c.toNat == 0x1680 || (0x2000 ≤ c.toNat && c.toNat ≤ 0x200A) ||
  c.toNat == 0x2028 || c.toNat == 0x2029 || c.toNat == 0x202F ||
  c.toNat == 0x205F || c.toNat == 0x3000

/-- Word characters in the sense of Python's Unicode regex `\w`, restricted to
the scripts this system processes (ASCII alphanumerics and underscore, Latin
letters, kana, CJK ideographs, fullwidth and halfwidth forms).  Katakana
punctuation (U+30A0, U+30FB) is excluded, as Python's `\w` does not match it. -/
def isWordChar (c : Char) : Bool :=
  let n := c.toNat
  c.isAlphanum || c == '_' ||
  (0xC0 ≤ n && n ≤ 0x24F && n != 0xD7 && n != 0xF7) ||
  (0x3041 ≤ n && n ≤ 0x3096) ||
  (0x30A1 ≤ n && n ≤ 0x30FA) || (0x30FC ≤ n && n ≤ 0x30FF) ||
  (0x3400 ≤ n && n ≤ 0x4DBF) || (0x4E00 ≤ n && n ≤ 0x9FFF) ||
  (0xAC00 ≤ n && n ≤ 0xD7A3) ||
  (0xFF10 ≤ n && n ≤ 0xFF19) || (0xFF21 ≤ n && n ≤ 0xFF3A) ||
  (0xFF41 ≤ n && n ≤ 0xFF5A) || (0xFF66 ≤ n && n ≤ 0xFF9F)

/-- `text.strip()` on a character list. -/
def pyStrip (l : List Char) : List Char :=
  ((l.dropWhile isPySpace).reverse.dropWhile isPySpace).reverse

/-- `text.strip()` on a `String`. -/
def pyStripS (s : String) : String :=
  String.mk (pyStrip s.toList)

/-- `re.sub(r'\s+', ' ', text)`: collapse every run of whitespace into a
single ASCII space. -/
def collapseWs : List Char → List Char
  | [] => []
  | [c] => if isPySpace c then [' '] else [c]
  | c :: d :: rest =>
    if isPySpace c then
      if isPySpace d then collapseWs (d :: rest)
      else ' ' :: d :: collapseWs rest
    else c :: collapseWs (d :: rest)

/-- `pre` is a leading segment of `s` (`s.startswith(pre)` with the
arguments flipped: `leadMatch pre s`). -/
def leadMatch : List Char → List Char → Bool
  | [], _ => true
  | _ :: _, [] => false
  | p :: ps, c :: cs => p == c && leadMatch ps cs

/-- `pat in s` for strings: `pat` occurs as a contiguous substring of `s`. -/
def hasSub : List Char → List Char → Bool
  | s, pat =>
    match s with
    | [] => leadMatch pat []
    | _ :: t => leadMatch pat s || hasSub t pat

/-- `s.startswith(pre)` for `String`s. -/
def startsWithS (s pre : String) : Bool :=
  leadMatch pre.toList s.toList

/-- Everything after the first ASCII colon (`line.split(':', 1)[1]`);
empty when there is no colon. -/
def afterFirstColon : List Char → List Char
  | [] => []
  | c :: t => if c == ':' then t else afterFirstColon t

/-- `response.split('\n')` on a character list. -/
def splitNl : List Char → List (List Char)
  | [] => [[]]
  | c :: rest =>
    if c == '\n' then [] :: splitNl rest
    else
      match splitNl rest with
      | [] => [[c]]
      | l :: ls => (c :: l) :: ls

/-- `s.upper()` (ASCII; the values compared in this system are option
letters). -/
def pyUpper (s : String) : String :=
  String.mk (s.toList.map Char.toUpper)

/-- Case-insensitive ASCII lowering of a character list (models
`case=False` containment and `str.lower()` on the scripts in use; kana and
CJK are unaffected by case mapping). -/
def lowerList (l : List Char) : List Char :=
  l.map Char.toLower

/-! ## Levenshtein-backend similarity model

`fuzzywuzzy`'s preferred backend computes
`ratio = (lensum - ldist) / lensum` where `ldist` is the edit distance with
substitutions counted twice (the indel distance).  `levF` is a fuel-guarded
structural recursion so that the kernel can evaluate it. -/

/-- Indel distance with explicit fuel (the fuel is only consumed on the
branching step, and `a.length + b.length` is always enough). -/
def levF : Nat → List Char → List Char → Nat
  | _, [], ys => ys.length
  | _, x :: xs, [] => (x :: xs).length
  | 0, x :: xs, y :: ys => (x :: xs).length + (y :: ys).length
  | f + 1, x :: xs, y :: ys =>
    if x = y then levF f xs ys
    else 1 + min (levF f xs (y :: ys)) (levF f (x :: xs) ys)

/-- Indel distance (Levenshtein distance with substitution cost 2). -/
def lev (a b : List Char) : Nat :=
  levF (a.length + b.length) a b

/-- The summed length of the two inputs of a ratio computation. -/
def lensum (a b : String) : Nat :=
  a.toList.length + b.toList.length

/-- Integer percentage form of the Levenshtein-backend ratio
`(lensum - ldist) / lensum`, rounded to a percentage. -/
def levRatioNat (a b : String) : Nat :=
  if lensum a b = 0 then 100
  else (200 * (lensum a b - lev a.toList b.toList) + lensum a b) / (2 * lensum a b)

/-! ## The external fuzzy-scorer interface

`excel_handler.py` calls four scorers of the `fuzzywuzzy` library
(`fuzz.ratio`, `fuzz.partial_ratio`, `fuzz.token_sort_ratio`,
`fuzz.token_set_ratio`).  Each returns an integer in `[0, 100]`; that
documented range guarantee is all the lookup code relies on, so the
library is embedded as this structure. -/
structure Fuzz where
  ratio : String → String → Nat
  pratio : String → String → Nat
  tsortRatio : String → String → Nat
  tsetRatio : String → String → Nat
  ratio_le : ∀ q t, ratio q t ≤ 100
  pratio_le : ∀ q t, pratio q t ≤ 100
  tsortRatio_le : ∀ q t, tsortRatio q t ≤ 100
  tsetRatio_le : ∀ q t, tsetRatio q t ≤ 100

/-! ## Excel question-bank model (`excel_handler.py`) -/

/-- A row of a loaded sheet: column name to cell; `none` models `NaN`. -/
def Row := List (String × Option String)

/-- A loaded sheet (`pandas.DataFrame` after `_clean_dataframe`): its column
names and its rows indexed positionally. -/
structure DataFrame where
  columns : List String
  rows : List Row

/-- Per-sheet configuration (`excel.sheets_config` entries). -/
structure SheetConfig where
  question_column : Option String
  answer_columns : List String
  correct_answer_column : Option String

/-- `excel.fuzzy_match` configuration. -/
structure FuzzyConfig where
  threshold : ℚ
  max_results : Nat

/-- The whole `excel` configuration relevant to lookup. -/
structure ExcelConfig where
  sheets_config : List (String × SheetConfig)
  fuzzy : FuzzyConfig

/-- Answer payload extracted from a matched row. -/
structure AnswerInfo where
  options : List (String × String)
  correct_answer : String
  answer_text : String
deriving DecidableEq

/-- One lookup result (the dict built in `_search_in_sheet` /
`_exact_search_in_sheet`). -/
structure MatchResult where
  sheet_name : String
  row_index : Nat
  question : String
  match_score : ℚ
  answer_info : AnswerInfo
  matched_method : String
deriving DecidableEq

/-- `row[col]` under `pd.notna`: `some v` when the column holds the (string)
value `v`, `none` when it is absent or `NaN`. -/
def row_cell (row : Row) (col : String) : Option String :=
  (List.lookup col row).getD none

/-- `str(row[col])`: the cell's string, `"nan"` for a `NaN`. -/
def row_str (row : Row) (col : String) : String :=
  match row_cell row col with
  | some s => s
  | none => "nan"

/-- `_clean_question_text`: strip, collapse whitespace, drop characters
outside `\w`, `\s` and the hiragana / katakana / CJK ranges, lowercase. -/
def clean_question_text (text : String) : String :=
  if text = "" then ""
  else
    let l := collapseWs (pyStrip text.toList)
    let kept := l.filter (fun c =>
      isWordChar c || isPySpace c ||
      (0x3040 ≤ c.toNat && c.toNat ≤ 0x309F) ||
      (0x30A0 ≤ c.toNat && c.toNat ≤ 0x30FF) ||
      (0x4E00 ≤ c.toNat && c.toNat ≤ 0x9FAF))
    String.mk (lowerList kept)

/-- `_calculate_match_score`: weighted blend of the four scorers, `0.0` when
either side is empty. -/
def calculate_match_score (fz : Fuzz) (query target : String) : ℚ :=
  if query = "" ∨ target = "" then 0
  else
    (0.2 : ℚ) * ((fz.ratio query target : ℚ) / 100) +
    (0.3 : ℚ) * ((fz.pratio query target : ℚ) / 100) +
    (0.25 : ℚ) * ((fz.tsortRatio query target : ℚ) / 100) +
    (0.25 : ℚ) * ((fz.tsetRatio query target : ℚ) / 100)

/-- Insert into an insertion-ordered dict: an existing key is overwritten in
place, a new key is appended (Python `dict` assignment). -/
def dictInsert (d : List (String × String)) (k v : String) : List (String × String) :=
  if (List.lookup k d).isSome then
    d.map (fun p => if p.1 = k then (k, v) else p)
  else d ++ [(k, v)]

/-- Option label for position `i` in the configured answer columns
(`chr(65 + i)`). -/
def optionLabel (i : Nat) : String :=
  String.mk [Char.ofNat (65 + i)]

/-- The `for i, col in enumerate(answer_columns)` loop of
`_extract_answer_info`, building the options dict. -/
def build_options (row : Row) : Nat → List String → List (String × String) → List (String × String)
  | _, [], acc => acc
  | i, col :: rest, acc =>
    match row_cell row col with
    | some v => build_options row (i + 1) rest (dictInsert acc (optionLabel i) v)
    | none => build_options row (i + 1) rest acc

/-- `_extract_answer_info`: options by column order, correct answer, and the
resolved answer text (the named option's text when the correct-answer value
is an option label, the raw value otherwise). -/
def extract_answer_info (row : Row) (scfg : SheetConfig) : AnswerInfo :=
  let options := build_options row 0 scfg.answer_columns []
  match scfg.correct_answer_column with
  | none => ⟨options, "", ""⟩
  | some ccol =>
    if ccol = "" then ⟨options, "", ""⟩
    else
      match row_cell row ccol with
      | none => ⟨options, "", ""⟩
      | some v =>
        match List.lookup (pyUpper v) options with
        | some t => ⟨options, v, t⟩
        | none => ⟨options, v, v⟩

/-- `_exact_search_in_sheet`: the rows whose stored question contains
`question_text` as a case-insensitive substring (`NaN` rows excluded),
each reported with score `1.0` and method `"exact"`.  A missing or
unknown question column raises in the source and is caught, yielding `[]`. -/
def exact_search_in_sheet (question_text sheet_name : String) (scfg : SheetConfig)
    (df : DataFrame) : List MatchResult :=
  match scfg.question_column with
  | none => []
  | some qcol =>
    if qcol ∈ df.columns then
      df.rows.enum.filterMap (fun p =>
        match row_cell p.2 qcol with
        | none => none
        | some v =>
          if hasSub (lowerList v.toList) (lowerList question_text.toList) then
            some { sheet_name := sheet_name, row_index := p.1, question := v,
                   match_score := 1, answer_info := extract_answer_info p.2 scfg,
                   matched_method := "exact" }
          else none)
    else []

/-- The fuzzy-matching row loop of `_search_in_sheet`: rows with a usable
question cell whose blended score reaches the threshold. -/
def fuzzy_results (fz : Fuzz) (fc : FuzzyConfig) (cleaned sheet_name : String)
    (scfg : SheetConfig) (df : DataFrame) (qcol : String) : List MatchResult :=
  df.rows.enum.filterMap (fun p =>
    let dbq := row_str p.2 qcol
    if dbq = "" ∨ dbq = "nan" then none
    else
      let score := calculate_match_score fz cleaned (clean_question_text dbq)
      if fc.threshold ≤ score then
        some { sheet_name := sheet_name, row_index := p.1, question := dbq,
               match_score := score, answer_info := extract_answer_info p.2 scfg,
               matched_method := "fuzzy" }
      else none)

/-- `_search_in_sheet`: guard the question column, clean the query, run the
fuzzy row loop, then append the exact-substring matches. -/
def search_in_sheet (fz : Fuzz) (fc : FuzzyConfig) (question_text sheet_name : String)
    (scfg : SheetConfig) (df : DataFrame) : List MatchResult :=
  match scfg.question_column with
  | none => []
  | some qcol =>
    if qcol = "" then []
    else if qcol ∈ df.columns then
      let cleaned := clean_question_text question_text
      fuzzy_results fz fc cleaned sheet_name scfg df qcol ++
        exact_search_in_sheet cleaned sheet_name scfg df
    else []

/-- Stable descending insertion by `match_score`: the new element is placed
before the first element whose score does not exceed its own, so it ends up
after exactly the elements of strictly greater score.  Under `foldr` (which
inserts the rightmost element first), an element is thus placed before every
equal-score element that follows it in the input, reproducing Python's
stable sort. -/
def insertDesc (x : MatchResult) : List MatchResult → List MatchResult
  | [] => [x]
  | y :: ys => if y.match_score ≤ x.match_score then x :: y :: ys else y :: insertDesc x ys

/-- `all_results.sort(key=match_score, reverse=True)`: the stable descending
sort (Python's sort is stable, and a stable sort is unique, so insertion
sort models it exactly). -/
def sortDesc (l : List MatchResult) : List MatchResult :=
  l.foldr insertDesc []

/-- Accumulate per-sheet results in configuration order
(`all_results.extend(results)`). -/
def gather (f : String × SheetConfig → List MatchResult) :
    List (String × SheetConfig) → List MatchResult
  | sheets => sheets.foldl (fun acc p => acc ++ f p) []

/-- The contribution of one configured sheet to `search_question`
(nothing when the sheet is not in the cache). -/
def sheet_results (cache : List (String × DataFrame)) (fz : Fuzz) (fc : FuzzyConfig)
    (q : String) (p : String × SheetConfig) : List MatchResult :=
  match List.lookup p.1 cache with
  | none => []
  | some df => search_in_sheet fz fc q p.1 p.2 df

/-- `search_question`: search every configured sheet, sort all results by
descending score, and truncate to `max_results`. -/
def search_question (cfg : ExcelConfig) (cache : List (String × DataFrame))
    (fz : Fuzz) (q : String) : List MatchResult :=
  (sortDesc (gather (sheet_results cache fz cfg.fuzzy q) cfg.sheets_config)).take
    cfg.fuzzy.max_results

/-! ## Model-answer parsing (`api_handler.py::_parse_answer`) -/

/-- The structured payload `_parse_answer` builds. -/
structure ParsedAnswer where
  question_type : String
  reasoning : String
  answer : String
  correct_option : String
  confidence : ℚ
deriving DecidableEq

/-- `line.split(':', 1)[1].strip()`. -/
def valAfterColon (line : String) : String :=
  String.mk (pyStrip (afterFirstColon line.toList))

/-- The stripped line matches the answer label (`答え:` / `答案:`). -/
def isAnswerLine (line : String) : Bool :=
  startsWithS line "答え:" || startsWithS line "答案:"

/-- The stripped line matches the legacy correct-answer label
(`正解:` / `正确答案:`). -/
def isCorrectLine (line : String) : Bool :=
  startsWithS line "正解:" || startsWithS line "正确答案:"

/-- The body of the `for line in lines` loop: strip the line, then assign
the matching label's field (each later match overwrites the field). -/
def parse_line (acc : ParsedAnswer) (rawLine : String) : ParsedAnswer :=
  let line := pyStripS rawLine
  if startsWithS line "思考過程:" || startsWithS line "思考过程:" then
    { acc with reasoning := valAfterColon line }
  else if startsWithS line "答え:" || startsWithS line "答案:" then
    { acc with answer := valAfterColon line }
  else if startsWithS line "問題の種類:" || startsWithS line "问题类型:" then
    { acc with question_type := valAfterColon line }
  else if startsWithS line "解法・考え方:" || startsWithS line "解答过程:" then
    { acc with reasoning := valAfterColon line }
  else if startsWithS line "正解:" || startsWithS line "正确答案:" then
    { acc with correct_option := valAfterColon line }
  else acc

/-- The candidate letters of the option regexes (`[A-Da-d]`). -/
def isOptLetter (c : Char) : Bool :=
  c == 'A' || c == 'B' || c == 'C' || c == 'D' ||
  c == 'a' || c == 'b' || c == 'c' || c == 'd'

/-- Scanner for `re.search(r'\b([A-Da-d])\b', s)`: the first position
holding an option letter with a word boundary on both sides. -/
def findOpt1Aux (prev : Option Char) : List Char → Option Char
  | [] => none
  | c :: rest =>
    if isOptLetter c &&
        (match prev with | none => true | some p => !(isWordChar p)) &&
        (match rest with | [] => true | d :: _ => !(isWordChar d)) then
      some c
    else findOpt1Aux (some c) rest

/-- `re.search(r'\b([A-Da-d])\b', s)`. -/
def findOpt1 (l : List Char) : Option Char :=
  findOpt1Aux none l

/-- The `[：:]\s*([A-Da-d])` tail of the second regex after a greedy `.*`:
the capture at the last colon whose following non-space character is an
option letter. -/
def colonScan : List Char → Option Char
  | [] => none
  | c :: rest =>
    match colonScan rest with
    | some x => some x
    | none =>
      if c == ':' || c == '：' then
        match rest.dropWhile isPySpace with
        | d :: _ => if isOptLetter d then some d else none
        | [] => none
      else none

/-- `re.search(r'[答正解].*[：:]\s*([A-Da-d])', s)`: leftmost start on one
of the three anchor characters, greedy `.*` to the last viable colon. -/
def findOpt2 : List Char → Option Char
  | [] => none
  | c :: rest =>
    if c == '答' || c == '正' || c == '解' then
      match colonScan rest with
      | some x => some x
      | none => findOpt2 rest
    else findOpt2 rest

/-- The option-letter extraction applied to the answer text when no
correct option was parsed from a label (first regex, then the second;
the captured letter is uppercased; empty when neither matches). -/
def extract_option (a : String) : String :=
  match findOpt1 a.toList with
  | some c => String.mk [c.toUpper]
  | none =>
    match findOpt2 a.toList with
    | some c => String.mk [c.toUpper]
    | none => ""

/-- The raw lines of `response_text.strip().split('\n')`. -/
def respLines (response_text : String) : List String :=
  (splitNl (pyStrip response_text.toList)).map (fun l => String.mk l)

/-- `_parse_answer`: scan the lines for the five bilingual label pairs
(later matches overwrite), fall back to the last non-blank line (or the
whole trimmed response) when no answer or correct option was found, then
try to extract an option letter from the answer. -/
def parse_answer (response_text : String) : ParsedAnswer :=
  let lines := respLines response_text
  let r := lines.foldl parse_line ⟨"", "", "", "", 9 / 10⟩
  let r :=
    if r.answer = "" ∧ r.correct_option = "" then
      match ((lines.map pyStripS).filter (fun l => l ≠ "")).getLast? with
      | some last => { r with answer := last }
      | none => { r with answer := String.mk (pyStrip response_text.toList) }
    else r
  if r.correct_option = "" then { r with correct_option := extract_option r.answer }
  else r

/-! ## Model call result handling (`api_handler.py::solve_question`)

`_call_api` either yields the decoded JSON of a 200 response or `None`
(timeout, network error, or any non-200 status).  The JSON value and the
dictionary/list accesses performed on it are modelled explicitly, with
Python exceptions as `Except`. -/

/-- A decoded JSON value. -/
inductive Jv where
  | null
  | str (s : String)
  | num (q : ℚ)
  | arr (elems : List Jv)
  | obj (fields : List (String × Jv))

/-- Python truthiness of a decoded JSON value. -/
def truthy : Jv → Bool
  | .null => false
  | .str s => s ≠ ""
  | .num q => q ≠ 0
  | .arr l => !l.isEmpty
  | .obj f => !f.isEmpty

/-- Equality of a JSON value with the string `k` (what `in` compares for a
list element). -/
def jvIsStr (k : String) : Jv → Bool
  | .str s => s == k
  | _ => false

/-- `'k' in v` (raises `TypeError` on numbers and `None`). -/
def hasKey (v : Jv) (k : String) : Except String Bool :=
  match v with
  | .obj fs => .ok (List.lookup k fs).isSome
  | .arr es => .ok (es.any (jvIsStr k))
  | .str s => .ok (hasSub s.toList k.toList)
  | _ => .error "TypeError: argument is not iterable"

/-- `v['k']` (raises `KeyError` / `TypeError`). -/
def getKey (v : Jv) (k : String) : Except String Jv :=
  match v with
  | .obj fs =>
    match List.lookup k fs with
    | some x => .ok x
    | none => .error ("KeyError: " ++ k)
  | _ => .error "TypeError: not subscriptable by string"

/-- `v[i]` (raises `IndexError` / `TypeError`). -/
def getIdx (v : Jv) (i : Nat) : Except String Jv :=
  match v with
  | .arr es =>
    match es.get? i with
    | some x => .ok x
    | none => .error "IndexError: list index out of range"
  | _ => .error "TypeError: not subscriptable by index"

/-- The extracted content must be a string (`.strip()` on anything else
raises, inside and again outside `_parse_answer`'s own handler). -/
def asStr : Jv → Except String String
  | .str s => .ok s
  | _ => .error "AttributeError: no attribute strip"

/-- The result dictionary of `solve_question`. -/
structure SolveResult where
  success : Bool
  error : Option String
  answer : Option ParsedAnswer
  raw_response : Option String
  source : String
deriving DecidableEq

/-- `response['choices'][0]['message']['content']` as a string. -/
def extractContent (v : Jv) : Except String String := do
  let cs ← getKey v "choices"
  let c0 ← getIdx cs 0
  let m ← getKey c0 "message"
  let ct ← getKey m "content"
  asStr ct

/-- `solve_question`, as a function of the `_call_api` outcome: a `None` or
key-less response yields the format-error failure, an exception anywhere in
the `try` block is caught into a failure with the exception's message, and
a well-shaped response yields a success with the parsed answer. -/
def solve_question (callResult : Option Jv) : SolveResult :=
  match callResult with
  | none => ⟨false, some "API响应格式错误", none, none, "api"⟩
  | some v =>
    if truthy v then
      match hasKey v "choices" with
      | .error e => ⟨false, some e, none, none, "api"⟩
      | .ok false => ⟨false, some "API响应格式错误", none, none, "api"⟩
      | .ok true =>
        match extractContent v with
        | .error e => ⟨false, some e, none, none, "api"⟩
        | .ok content =>
          ⟨true, none, some (parse_answer content), some content, "api"⟩
    else ⟨false, some "API响应格式错误", none, none, "api"⟩

/-! ## Transport retry (`api_handler.py::_create_session`, `_call_api`)

The session is configured with `Retry(total=3, backoff_factor=1,
status_forcelist=[429, 500, 502, 503, 504])` and a 30-second timeout.
The retry loop itself is `urllib3` library code outside this repository;
it is modelled here including the detail that decides the claim:
`Retry.is_retry` consults its idempotent-method allowlist (which does not
contain POST) BEFORE the status forcelist, and this session is only ever
asked to POST, so a forcelist status is never actually retried. -/

/-- The configured retryable statuses. -/
def status_forcelist : List Nat := [429, 500, 502, 503, 504]

/-- The configured number of retries (`Retry(total=3)`). -/
def retry_total : Nat := 3

/-- The configured request timeout in seconds (`timeout=30`). -/
def api_timeout : Nat := 30

/-- Modelled from the spec and the configured library: `urllib3`'s default
idempotent-method allowlist (`Retry.DEFAULT_ALLOWED_METHODS`); POST is not
in it. -/
def allowed_methods : List String := ["HEAD", "GET", "PUT", "DELETE", "OPTIONS", "TRACE"]

/-- `Retry._is_method_retryable`. -/
def is_method_retryable (method : String) : Bool :=
  method ∈ allowed_methods

/-- `Retry.is_retry(method, status)`: the method allowlist is consulted
before the status forcelist, so a non-idempotent method is never
status-retried. -/
def is_retry (method : String) (status : Nat) : Bool :=
  is_method_retryable method && decide (status ∈ status_forcelist)

/-- Modelled from the spec: the transport retry loop of the HTTP session
(`urllib3.util.retry.Retry`, external library code configured in
`_create_session`), sending with the given HTTP method.  Each attempt
consumes one status from the supply; a status accepted by `is_retry`
consumes a retry, any other status is delivered immediately, and
exhausting the retries aborts.  Returns the status delivered to the
caller (`none` when no response was delivered) and the number of attempts
made. -/
def session_attempts (method : String) (retries : Nat) : List Nat → Option Nat × Nat
  | [] => (none, 0)
  | s :: rest =>
    if is_retry method s then
      match retries with
      | 0 => (none, 1)
      | r + 1 =>
        let p := session_attempts method r rest
        (p.1, p.2 + 1)
    else (some s, 1)

/-- `_call_api`'s handling of a delivered response: the decoded JSON body
on a 200 status, `None` on any other status (as on a timeout or request
exception). -/
def call_api_result (delivered : Option Nat) (body : Jv) : Option Jv :=
  match delivered with
  | some 200 => some body
  | _ => none

/-- A well-shaped chat-completion response body. -/
def wellBody : Jv :=
  Jv.obj [("choices",
    Jv.arr [Jv.obj [("message", Jv.obj [("content", Jv.str "答え: 2")])]])]

/-- Modelled from the spec: `urllib3`'s exponential backoff
`backoff_factor * 2 ** (consecutive - 1)` capped at 120 seconds, with no
sleep before the first retry. -/
def backoff_time (factor : ℚ) (consecutive : Nat) : ℚ :=
  if consecutive ≤ 1 then 0
  else min (120 : ℚ) (factor * 2 ^ (consecutive - 1))

/-! ## Orchestrator trigger handler (`main.py::_on_hotkey_triggered`) -/

/-- The in-memory counters the handler touches. -/
structure AppStats where
  total_requests : Nat
  successful_answers : Nat
  failed_answers : Nat
deriving DecidableEq

/-- The outcome dictionary of `_process_question` (only the fields the
handler reads). -/
structure PipeResult where
  success : Bool
  error : Option String
deriving DecidableEq

/-- How the `_process_question()` call inside the `try` block ends:
a returned value (possibly `None`) or a raised exception. -/
inductive PipeOutcome where
  | ret (r : Option PipeResult)
  | exn (msg : String)
deriving DecidableEq

/-- The externally visible effects of one trigger callback. -/
structure TriggerEffect where
  ran_pipeline : Bool
  busy_notice : Bool
  error_shown : Option String
deriving DecidableEq

/-- `_on_hotkey_triggered`: drop the trigger with a status notice when the
busy flag is set; otherwise count the request, run the pipeline, show an
error on a failed or exceptional outcome, and always clear the busy flag
in the `finally` block.  Returns the new busy flag, the new counters and
the visible effects. -/
def on_hotkey_triggered (is_processing : Bool) (stats : AppStats) (out : PipeOutcome) :
    Bool × AppStats × TriggerEffect :=
  if is_processing then
    (is_processing, stats, ⟨false, true, none⟩)
  else
    let stats := { stats with total_requests := stats.total_requests + 1 }
    match out with
    | .ret (some r) =>
      if r.success then
        (false, { stats with successful_answers := stats.successful_answers + 1 },
          ⟨true, false, none⟩)
      else
        (false, { stats with failed_answers := stats.failed_answers + 1 },
          ⟨true, false, some ("处理失败: " ++ r.error.getD "未知错误")⟩)
    | .ret none =>
      (false, { stats with failed_answers := stats.failed_answers + 1 },
        ⟨true, false, some ("处理失败: " ++ "处理失败")⟩)
    | .exn m =>
      (false, { stats with failed_answers := stats.failed_answers + 1 },
        ⟨true, false, some ("处理异常: " ++ m)⟩)

/-! ## Facts about the Levenshtein-backend model -/

theorem levF_self : ∀ (s : List Char) (f : Nat), s.length ≤ f → levF f s s = 0
  | [], f, _ => by cases f <;> rfl
  | x :: xs, f, h => by
    cases f with
    | zero => simp at h
    | succ f' =>
      have hx : xs.length ≤ f' := by
        simp only [List.length_cons] at h
        omega
      simp [levF, levF_self xs f' hx]

theorem levF_le : ∀ (f : Nat) (xs ys : List Char), levF f xs ys ≤ xs.length + ys.length
  | _, [], ys => by simp [levF]
  | f, x :: xs, [] => by cases f <;> simp [levF]
  | 0, x :: xs, y :: ys => by simp [levF]
  | f + 1, x :: xs, y :: ys => by
    simp only [levF, List.length_cons]
    split
    · have := levF_le f xs ys
      omega
    · have h1 := levF_le f xs (y :: ys)
      have hm := Nat.min_le_left (levF f xs (y :: ys)) (levF f (x :: xs) ys)
      simp only [List.length_cons] at h1
      omega

theorem lev_self (s : List Char) : lev s s = 0 :=
  levF_self s (s.length + s.length) (Nat.le_add_right _ _)

theorem lev_le (a b : List Char) : lev a b ≤ a.length + b.length :=
  levF_le (a.length + b.length) a b

theorem levRatioNat_le (a b : String) : levRatioNat a b ≤ 100 := by
  unfold levRatioNat
  by_cases h : lensum a b = 0
  · simp [h]
  · rw [if_neg h]
    have hpos : 0 < 2 * lensum a b := by omega
    have hlt : 200 * (lensum a b - lev a.toList b.toList) + lensum a b
        < 101 * (2 * lensum a b) := by
      have := Nat.sub_le (lensum a b) (lev a.toList b.toList)
      omega
    have := (Nat.div_lt_iff_lt_mul hpos).mpr hlt
    omega

theorem levRatioNat_self (s : String) : levRatioNat s s = 100 := by
  unfold levRatioNat
  by_cases h : lensum s s = 0
  · rw [if_pos h]
  · rw [if_neg h, lev_self, Nat.sub_zero]
    have h1 : 100 * (2 * lensum s s) ≤ 200 * lensum s s + lensum s s := by omega
    have h2 : 200 * lensum s s + lensum s s < (100 + 1) * (2 * lensum s s) := by omega
    exact Nat.div_eq_of_lt_le h1 h2

/-- A concrete instance of the scorer interface: the Levenshtein-backend
ratio formula for all four scorers (the token and substring variants of the
library reduce to the same base ratio on reordered inputs; only the shared
range guarantee is relied on by the theorems below). -/
def fuzzInst : Fuzz where
  ratio := levRatioNat
  pratio := levRatioNat
  tsortRatio := levRatioNat
  tsetRatio := levRatioNat
  ratio_le := levRatioNat_le
  pratio_le := levRatioNat_le
  tsortRatio_le := levRatioNat_le
  tsetRatio_le := levRatioNat_le

/-! ## Facts about the stable descending sort -/

theorem mem_insertDesc {a x : MatchResult} : ∀ {l : List MatchResult},
    a ∈ insertDesc x l ↔ a = x ∨ a ∈ l
  | [] => by simp [insertDesc]
  | y :: ys => by
    simp only [insertDesc]
    split
    · simp
    · simp [mem_insertDesc (l := ys)]
      tauto

theorem length_insertDesc (x : MatchResult) : ∀ (l : List MatchResult),
    (insertDesc x l).length = l.length + 1
  | [] => rfl
  | y :: ys => by
    simp only [insertDesc]
    split
    · simp
    · simp [length_insertDesc x ys]

/-- The descending comparison used in the sortedness statements. -/
def ScoreGE (a b : MatchResult) : Prop := b.match_score ≤ a.match_score

theorem pairwise_insertDesc {x : MatchResult} : ∀ {l : List MatchResult},
    l.Pairwise ScoreGE → (insertDesc x l).Pairwise ScoreGE
  | [], _ => by simp [insertDesc]
  | y :: ys, h => by
    rcases List.pairwise_cons.mp h with ⟨hy, hys⟩
    simp only [insertDesc]
    split
    · rename_i hle
      refine List.pairwise_cons.mpr ⟨?_, h⟩
      intro b hb
      rcases List.mem_cons.mp hb with rfl | hb
      · exact hle
      · exact le_trans (hy b hb) hle
    · rename_i hnle
      refine List.pairwise_cons.mpr ⟨?_, pairwise_insertDesc hys⟩
      intro b hb
      rcases mem_insertDesc.mp hb with rfl | hb
      · exact (not_le.mp hnle).le
      · exact hy b hb

theorem pairwise_sortDesc (l : List MatchResult) : (sortDesc l).Pairwise ScoreGE := by
  induction l with
  | nil => simp [sortDesc]
  | cons x xs ih => exact pairwise_insertDesc ih

theorem mem_sortDesc {a : MatchResult} {l : List MatchResult} :
    a ∈ sortDesc l ↔ a ∈ l := by
  induction l with
  | nil => simp [sortDesc]
  | cons x xs ih =>
    simp only [sortDesc, List.foldr_cons] at ih ⊢
    rw [mem_insertDesc, ih, List.mem_cons]

theorem length_sortDesc (l : List MatchResult) : (sortDesc l).length = l.length := by
  induction l with
  | nil => rfl
  | cons x xs ih =>
    simp only [sortDesc, List.foldr_cons] at ih ⊢
    rw [length_insertDesc, ih, List.length_cons]

/-! ## Facts about per-sheet accumulation -/

theorem gather_nil (f : String × SheetConfig → List MatchResult) : gather f [] = [] := rfl

theorem foldl_append_acc (f : String × SheetConfig → List MatchResult) :
    ∀ (l : List (String × SheetConfig)) (acc : List MatchResult),
      l.foldl (fun a p => a ++ f p) acc = acc ++ l.foldl (fun a p => a ++ f p) []
  | [], acc => by simp
  | x :: xs, acc => by
    simp only [List.foldl_cons]
    rw [foldl_append_acc f xs (acc ++ f x), foldl_append_acc f xs ([] ++ f x)]
    simp

theorem gather_cons (f : String × SheetConfig → List MatchResult)
    (x : String × SheetConfig) (xs : List (String × SheetConfig)) :
    gather f (x :: xs) = f x ++ gather f xs := by
  simp only [gather, List.foldl_cons]
  rw [foldl_append_acc f xs ([] ++ f x)]
  simp

theorem mem_gather {r : MatchResult} {f : String × SheetConfig → List MatchResult} :
    ∀ {l : List (String × SheetConfig)}, r ∈ gather f l ↔ ∃ p ∈ l, r ∈ f p
  | [] => by simp [gather_nil]
  | x :: xs => by
    rw [gather_cons, List.mem_append, mem_gather (l := xs)]
    simp

theorem gather_congr {f g : String × SheetConfig → List MatchResult} :
    ∀ {l : List (String × SheetConfig)}, (∀ p ∈ l, f p = g p) → gather f l = gather g l
  | [], _ => rfl
  | x :: xs, h => by
    rw [gather_cons, gather_cons, h x (by simp),
      gather_congr (l := xs) (fun p hp => h p (by simp [hp]))]

theorem filter_gather (p : MatchResult → Bool) (f : String × SheetConfig → List MatchResult) :
    ∀ (l : List (String × SheetConfig)),
      (gather f l).filter p = gather (fun x => (f x).filter p) l
  | [] => rfl
  | x :: xs => by
    rw [gather_cons, gather_cons, List.filter_append, filter_gather p f xs]

/-! ## Candidate views of the lookup (spec-side definitions for C1)

The spec describes `search_question` as "all matches whose score is at or
above the threshold, sorted by descending score, truncated".  The
definitions below name the candidate set that sentence quantifies over:
per sheet, one fuzzy candidate per usable row (no threshold applied) plus
the exact-substring matches. -/

/-- All fuzzy candidates of a sheet (the threshold not yet applied). -/
def fuzzy_candidates (fz : Fuzz) (cleaned sheet_name : String)
    (scfg : SheetConfig) (df : DataFrame) (qcol : String) : List MatchResult :=
  df.rows.enum.filterMap (fun p =>
    let dbq := row_str p.2 qcol
    if dbq = "" ∨ dbq = "nan" then none
    else
      some { sheet_name := sheet_name, row_index := p.1, question := dbq,
             match_score := calculate_match_score fz cleaned (clean_question_text dbq),
             answer_info := extract_answer_info p.2 scfg,
             matched_method := "fuzzy" })

/-- All candidates of a sheet: every usable row as a fuzzy candidate,
followed by the exact matches. -/
def sheet_candidates (fz : Fuzz) (q sheet_name : String) (scfg : SheetConfig)
    (df : DataFrame) : List MatchResult :=
  match scfg.question_column with
  | none => []
  | some qcol =>
    if qcol = "" then []
    else if qcol ∈ df.columns then
      fuzzy_candidates fz (clean_question_text q) sheet_name scfg df qcol ++
        exact_search_in_sheet (clean_question_text q) sheet_name scfg df
    else []

/-- All candidates over the configured sheets present in the cache. -/
def all_candidates (cfg : ExcelConfig) (cache : List (String × DataFrame))
    (fz : Fuzz) (q : String) : List MatchResult :=
  gather (fun p =>
    match List.lookup p.1 cache with
    | none => []
    | some df => sheet_candidates fz q p.1 p.2 df) cfg.sheets_config

/-- Every exact match carries score `1.0` and method `"exact"`. -/
theorem mem_exact_search {r : MatchResult} {q sheet_name : String} {scfg : SheetConfig}
    {df : DataFrame} (h : r ∈ exact_search_in_sheet q sheet_name scfg df) :
    r.match_score = 1 ∧ r.matched_method = "exact" := by
  unfold exact_search_in_sheet at h
  split at h
  · simp at h
  · split at h
    · rcases List.mem_filterMap.mp h with ⟨p, _, hf⟩
      split at hf
      · simp at hf
      · split at hf
        · cases Option.some.inj hf
          exact ⟨rfl, rfl⟩
        · simp at hf
    · simp at h

/-- The fuzzy row loop is exactly the threshold filter over the fuzzy
candidates. -/
theorem fuzzy_results_eq_filter (fz : Fuzz) (fc : FuzzyConfig) (cleaned sheet_name : String)
    (scfg : SheetConfig) (df : DataFrame) (qcol : String) :
    fuzzy_results fz fc cleaned sheet_name scfg df qcol
      = (fuzzy_candidates fz cleaned sheet_name scfg df qcol).filter
          (fun r => decide (fc.threshold ≤ r.match_score)) := by
  unfold fuzzy_results fuzzy_candidates
  induction df.rows.enum with
  | nil => rfl
  | cons p ps ih =>
    simp only [List.filterMap_cons]
    by_cases hbad : row_str p.2 qcol = "" ∨ row_str p.2 qcol = "nan"
    · simp only [if_pos hbad, ih]
    · simp only [if_neg hbad]
      by_cases hth : fc.threshold
          ≤ calculate_match_score fz cleaned (clean_question_text (row_str p.2 qcol))
      · simp only [if_pos hth, List.filter_cons]
        simp [hth, ih]
      · simp only [if_neg hth, List.filter_cons]
        simp [hth, ih]

/-- With a threshold at most `1`, one sheet's results are exactly the
threshold filter over that sheet's candidates (the exact matches at score
`1.0` all pass the filter). -/
theorem search_in_sheet_eq_filter (fz : Fuzz) (fc : FuzzyConfig) (q sheet_name : String)
    (scfg : SheetConfig) (df : DataFrame) (hthr : fc.threshold ≤ 1) :
    search_in_sheet fz fc q sheet_name scfg df
      = (sheet_candidates fz q sheet_name scfg df).filter
          (fun r => decide (fc.threshold ≤ r.match_score)) := by
  unfold search_in_sheet sheet_candidates
  rcases hq : scfg.question_column with _ | qcol
  · rfl
  · by_cases h0 : qcol = ""
    · simp [h0]
    · by_cases hc : qcol ∈ df.columns
      · simp only [if_neg h0, if_pos hc, List.filter_append]
        rw [fuzzy_results_eq_filter]
        congr 1
        refine (List.filter_eq_self.mpr ?_).symm
        intro r hr
        rcases mem_exact_search hr with ⟨hs, _⟩
        simp [hs, hthr]
      · simp [if_neg h0, if_neg hc]

/-- The exact-match entry of a row whose stored question contains the query
case-insensitively is among the exact results. -/
theorem mem_exact_search_of (sheet_name : String) {q : String} {scfg : SheetConfig}
    {df : DataFrame} {qcol : String} {idx : Nat} {row : Row} {v : String}
    (hq : scfg.question_column = some qcol) (hc : qcol ∈ df.columns)
    (hrow : df.rows.get? idx = some row) (hcell : row_cell row qcol = some v)
    (hsub : hasSub (lowerList v.toList) (lowerList q.toList) = true) :
    ({ sheet_name := sheet_name, row_index := idx, question := v, match_score := 1,
       answer_info := extract_answer_info row scfg, matched_method := "exact" } : MatchResult)
      ∈ exact_search_in_sheet q sheet_name scfg df := by
  unfold exact_search_in_sheet
  rw [hq]
  dsimp only
  rw [if_pos hc]
  refine List.mem_filterMap.mpr ⟨(idx, row), ?_, ?_⟩
  · exact List.mem_enum_iff_get?.mpr hrow
  · simp only [hcell, hsub, if_true]

/-- `hasSub` with the empty pattern always succeeds (the empty string is a
substring of every string). -/
theorem hasSub_nil : ∀ (l : List Char), hasSub l [] = true
  | [] => rfl
  | _ :: t => by simp [hasSub, leadMatch, hasSub_nil t]

/-- C1: for every query, the bank lookup returns exactly the candidate
results at or above the configured threshold (when the threshold does not
exceed the fixed score of the exact matches), sorted by descending match
score and truncated to the configured maximum result count. -/
theorem bank_lookup_threshold_sorted_truncated
    (cfg : ExcelConfig) (cache : List (String × DataFrame)) (fz : Fuzz) (q : String)
    (hthr : cfg.fuzzy.threshold ≤ 1) :
    search_question cfg cache fz q
        = (sortDesc ((all_candidates cfg cache fz q).filter
            (fun r => decide (cfg.fuzzy.threshold ≤ r.match_score)))).take cfg.fuzzy.max_results
      ∧ (search_question cfg cache fz q).Pairwise ScoreGE
      ∧ (search_question cfg cache fz q).length ≤ cfg.fuzzy.max_results
      ∧ ∀ r ∈ search_question cfg cache fz q, cfg.fuzzy.threshold ≤ r.match_score := by
  have key : (all_candidates cfg cache fz q).filter
        (fun r => decide (cfg.fuzzy.threshold ≤ r.match_score))
      = gather (sheet_results cache fz cfg.fuzzy q) cfg.sheets_config := by
    unfold all_candidates
    rw [filter_gather]
    apply gather_congr
    intro p _
    unfold sheet_results
    cases hl : List.lookup p.1 cache with
    | none => rfl
    | some df => exact (search_in_sheet_eq_filter fz cfg.fuzzy q p.1 p.2 df hthr).symm
  refine ⟨?_, ?_, ?_, ?_⟩
  · unfold search_question
    rw [key]
  · exact List.Pairwise.sublist (List.take_sublist _ _) (pairwise_sortDesc _)
  · exact List.length_take_le _ _
  · intro r hr
    have h1 := List.take_subset _ _ hr
    have h2 := mem_sortDesc.mp h1
    rw [← key] at h2
    exact of_decide_eq_true (List.mem_filter.mp h2).2

/-- A one-sheet, one-row bank used to instantiate the lookup theorems. -/
def wsCfg : SheetConfig := ⟨some "Q", ["B", "C"], some "F"⟩

/-- The data frame of the instantiation bank. -/
def wsDf : DataFrame :=
  ⟨["Q", "B", "C", "F"],
   [[("Q", some "こんにちは"), ("B", some "1"), ("C", some "2"), ("F", some "B")]]⟩

/-- The excel configuration of the instantiation bank. -/
def wsExcel : ExcelConfig := ⟨[("s1", wsCfg)], ⟨0.8, 3⟩⟩

/-- The sheet cache of the instantiation bank. -/
def wsCache : List (String × DataFrame) := [("s1", wsDf)]

/-- C1 witness: the lookup theorem applied to a concrete bank and query. -/
theorem bank_lookup_threshold_sorted_truncated_witness :
    (search_question wsExcel wsCache fuzzInst "こんにちは").length ≤ 3 :=
  (bank_lookup_threshold_sorted_truncated wsExcel wsCache fuzzInst "こんにちは"
    (show (0.8 : ℚ) ≤ 1 by norm_num)).2.2.1

/-- C3: a row whose stored question contains the cleaned query
case-insensitively is reported with score exactly `1.0` and method
`"exact"` whatever the fuzzy scorers return; the exact results are
concatenated after the fuzzy results; and a row that also passes the fuzzy
threshold appears twice. -/
theorem exact_match_reported_and_not_deduplicated
    (fz : Fuzz) (fc : FuzzyConfig) (q sheet_name : String) (scfg : SheetConfig)
    (df : DataFrame) (qcol : String) (idx : Nat) (row : Row) (v : String)
    (hq : scfg.question_column = some qcol) (h0 : qcol ≠ "") (hc : qcol ∈ df.columns)
    (hrow : df.rows.get? idx = some row) (hcell : row_cell row qcol = some v)
    (hsub : hasSub (lowerList v.toList) (lowerList (clean_question_text q).toList) = true) :
    (∃ r ∈ search_in_sheet fz fc q sheet_name scfg df,
        r.row_index = idx ∧ r.match_score = 1 ∧ r.matched_method = "exact" ∧ r.question = v)
    ∧ search_in_sheet fz fc q sheet_name scfg df
        = fuzzy_results fz fc (clean_question_text q) sheet_name scfg df qcol ++
            exact_search_in_sheet (clean_question_text q) sheet_name scfg df
    ∧ (v ≠ "" → v ≠ "nan" →
        fc.threshold ≤ calculate_match_score fz (clean_question_text q) (clean_question_text v) →
        2 ≤ (search_in_sheet fz fc q sheet_name scfg df).countP (fun r => r.row_index == idx)) := by
  have hdecomp : search_in_sheet fz fc q sheet_name scfg df
      = fuzzy_results fz fc (clean_question_text q) sheet_name scfg df qcol ++
          exact_search_in_sheet (clean_question_text q) sheet_name scfg df := by
    unfold search_in_sheet
    rw [hq]
    dsimp only
    rw [if_neg h0, if_pos hc]
  have hex := mem_exact_search_of sheet_name hq hc hrow hcell hsub
  refine ⟨?_, hdecomp, ?_⟩
  · refine ⟨⟨sheet_name, idx, v, 1, extract_answer_info row scfg, "exact"⟩,
      ?_, rfl, rfl, rfl, rfl⟩
    rw [hdecomp]
    exact List.mem_append_right _ hex
  · intro hv1 hv2 hth
    have hvstr : row_str row qcol = v := by
      unfold row_str
      rw [hcell]
    have hfz : (⟨sheet_name, idx, v,
        calculate_match_score fz (clean_question_text q) (clean_question_text v),
        extract_answer_info row scfg, "fuzzy"⟩ : MatchResult)
        ∈ fuzzy_results fz fc (clean_question_text q) sheet_name scfg df qcol := by
      unfold fuzzy_results
      refine List.mem_filterMap.mpr ⟨(idx, row), List.mem_enum_iff_get?.mpr hrow, ?_⟩
      dsimp only
      rw [hvstr, if_neg (by simp [hv1, hv2]), if_pos hth]
    rw [hdecomp, List.countP_append]
    have c1 : 0 < (fuzzy_results fz fc (clean_question_text q) sheet_name scfg df
        qcol).countP (fun r => r.row_index == idx) :=
      List.countP_pos_iff.mpr ⟨_, hfz, by simp⟩
    have c2 : 0 < (exact_search_in_sheet (clean_question_text q) sheet_name scfg
        df).countP (fun r => r.row_index == idx) :=
      List.countP_pos_iff.mpr ⟨_, hex, by simp⟩
    omega

/-- C3 witness: the exact-match theorem applied at a concrete bank row
containing the cleaned query. -/
theorem exact_match_reported_witness :
    ∃ r ∈ search_in_sheet fuzzInst ⟨0.8, 3⟩ "こんにちは" "s1" wsCfg wsDf,
      r.row_index = 0 ∧ r.match_score = 1 ∧ r.matched_method = "exact" ∧
      r.question = "こんにちは" :=
  (exact_match_reported_and_not_deduplicated fuzzInst ⟨0.8, 3⟩ "こんにちは" "s1" wsCfg wsDf
    "Q" 0 [("Q", some "こんにちは"), ("B", some "1"), ("C", some "2"), ("F", some "B")]
    "こんにちは" rfl (by decide) (by decide) rfl (by decide) (by decide)).1

/-! ## The empty-cleaned-query edge case (C10) -/

/-- With a positive threshold, an empty cleaned query defeats every fuzzy
row (the blended score short-circuits to `0.0`). -/
theorem fuzzy_results_empty (fz : Fuzz) (fc : FuzzyConfig) (sheet_name : String)
    (scfg : SheetConfig) (df : DataFrame) (qcol : String) (hpos : 0 < fc.threshold) :
    fuzzy_results fz fc "" sheet_name scfg df qcol = [] := by
  unfold fuzzy_results
  rw [List.filterMap_eq_nil]
  intro p _
  dsimp only
  split
  · rfl
  · rw [if_neg]
    intro hle
    rw [calculate_match_score, if_pos (Or.inl rfl)] at hle
    exact absurd (lt_of_lt_of_le hpos hle) (lt_irrefl 0)

/-- The per-sheet exact-only view of the lookup used by the C10 theorem:
what each configured sheet contributes when the fuzzy pass is empty. -/
def exact_sheet_results (cache : List (String × DataFrame)) (q : String)
    (p : String × SheetConfig) : List MatchResult :=
  match List.lookup p.1 cache with
  | none => []
  | some df =>
    match p.2.question_column with
    | none => []
    | some qcol =>
      if qcol = "" then []
      else if qcol ∈ df.columns then
        exact_search_in_sheet (clean_question_text q) p.1 p.2 df
      else []

/-- Under an empty cleaned query and a positive threshold, each sheet's
results are exactly its exact-substring matches. -/
theorem sheet_results_of_empty_clean (cache : List (String × DataFrame)) (fz : Fuzz)
    (fc : FuzzyConfig) (q : String) (p : String × SheetConfig)
    (hq : clean_question_text q = "") (hpos : 0 < fc.threshold) :
    sheet_results cache fz fc q p = exact_sheet_results cache q p := by
  unfold sheet_results exact_sheet_results
  cases List.lookup p.1 cache with
  | none => rfl
  | some df =>
    unfold search_in_sheet
    cases p.2.question_column with
    | none => rfl
    | some qcol =>
      dsimp only
      by_cases h0 : qcol = ""
      · simp [h0]
      · by_cases hc : qcol ∈ df.columns
        · rw [if_neg h0, if_neg h0, if_pos hc, if_pos hc, hq,
            fuzzy_results_empty fz fc p.1 p.2 df qcol hpos]
          simp [hq]
        · simp [h0, hc]

/-- C10: a query that cleans to the empty string scores `0.0` against every
stored question on the fuzzy path, yet the exact pass matches every row
with a non-null question cell, so the lookup returns score-`1.0`
`"exact"` results up to the configured maximum instead of returning
nothing. -/
theorem empty_cleaned_query_matches_everything
    (cfg : ExcelConfig) (cache : List (String × DataFrame)) (fz : Fuzz) (q : String)
    (hq : clean_question_text q = "") (hpos : 0 < cfg.fuzzy.threshold) :
    (∀ t, calculate_match_score fz (clean_question_text q) t = 0)
    ∧ (∀ r ∈ search_question cfg cache fz q, r.match_score = 1 ∧ r.matched_method = "exact")
    ∧ (search_question cfg cache fz q).length
        = min cfg.fuzzy.max_results (gather (exact_sheet_results cache q) cfg.sheets_config).length
    ∧ (∀ name scfg df qcol idx row v,
        (name, scfg) ∈ cfg.sheets_config → List.lookup name cache = some df →
        scfg.question_column = some qcol → qcol ≠ "" → qcol ∈ df.columns →
        df.rows.get? idx = some row → row_cell row qcol = some v →
        ∃ r ∈ gather (exact_sheet_results cache q) cfg.sheets_config,
          r.sheet_name = name ∧ r.row_index = idx ∧ r.match_score = 1 ∧
          r.matched_method = "exact") := by
  have hkey : gather (sheet_results cache fz cfg.fuzzy q) cfg.sheets_config
      = gather (exact_sheet_results cache q) cfg.sheets_config :=
    gather_congr (fun p _ => sheet_results_of_empty_clean cache fz cfg.fuzzy q p hq hpos)
  have hsq : search_question cfg cache fz q
      = (sortDesc (gather (exact_sheet_results cache q) cfg.sheets_config)).take
          cfg.fuzzy.max_results := by
    unfold search_question
    rw [hkey]
  refine ⟨?_, ?_, ?_, ?_⟩
  · intro t
    rw [hq, calculate_match_score, if_pos (Or.inl rfl)]
  · intro r hr
    rw [hsq] at hr
    have h1 := mem_sortDesc.mp (List.take_subset _ _ hr)
    rcases mem_gather.mp h1 with ⟨p, _, hp⟩
    unfold exact_sheet_results at hp
    split at hp
    · simp at hp
    · split at hp
      · simp at hp
      · split at hp
        · simp at hp
        · split at hp
          · exact mem_exact_search hp
          · simp at hp
  · rw [hsq, List.length_take, length_sortDesc]
  · intro name scfg df qcol idx row v hmem hl hqc h0 hc hrow hcell
    have hsubnil : hasSub (lowerList v.toList)
        (lowerList (clean_question_text q).toList) = true := by
      rw [hq]
      exact hasSub_nil _
    have hx := mem_exact_search_of name hqc hc hrow hcell hsubnil
    refine ⟨⟨name, idx, v, 1, extract_answer_info row scfg, "exact"⟩,
      mem_gather.mpr ⟨(name, scfg), hmem, ?_⟩, rfl, rfl, rfl, rfl⟩
    unfold exact_sheet_results
    rw [hl]
    dsimp only
    rw [hqc]
    dsimp only
    rw [if_neg h0, if_pos hc]
    exact hx

/-- A bank for the empty-query edge case. -/
def wsCacheB : List (String × DataFrame) :=
  [("s1", ⟨["Q", "B"], [[("Q", some "はい"), ("B", some "1")]]⟩)]

/-- The excel configuration for the empty-query edge case. -/
def wsExcelB : ExcelConfig := ⟨[("s1", ⟨some "Q", ["B"], none⟩)], ⟨0.8, 3⟩⟩

/-- C10 witness: the empty-cleaned-query theorem applied to a query of pure
punctuation (`"???"` cleans to the empty string). -/
theorem empty_cleaned_query_matches_everything_witness :
    calculate_match_score fuzzInst (clean_question_text "???") "はい" = 0 :=
  (empty_cleaned_query_matches_everything wsExcelB wsCacheB fuzzInst "???"
    (by decide) (show (0 : ℚ) < 0.8 by norm_num)).1 "はい"

/-! ## C2: range of the blended similarity score -/

/-- C2: the blended score is a `0.2/0.3/0.25/0.25`-weighted sum of four
sub-measures, each in `[0, 1]` by the scorer interface's range guarantee,
so it lies in `[0, 1]`; and on an identical non-empty pair the
character-ratio sub-measure of the concrete backend model is exactly `1.0`. -/
theorem blended_score_in_unit_interval (fz : Fuzz) (q t : String) :
    (0 ≤ calculate_match_score fz q t ∧ calculate_match_score fz q t ≤ 1)
    ∧ (∀ s : String, s ≠ "" → (fuzzInst.ratio s s : ℚ) / 100 = 1) := by
  constructor
  · unfold calculate_match_score
    split
    · norm_num
    · have e1 : ((fz.ratio q t : ℚ)) / 100 ≤ 1 := by
        rw [div_le_one (by norm_num)]
        exact_mod_cast fz.ratio_le q t
      have e2 : ((fz.pratio q t : ℚ)) / 100 ≤ 1 := by
        rw [div_le_one (by norm_num)]
        exact_mod_cast fz.pratio_le q t
      have e3 : ((fz.tsortRatio q t : ℚ)) / 100 ≤ 1 := by
        rw [div_le_one (by norm_num)]
        exact_mod_cast fz.tsortRatio_le q t
      have e4 : ((fz.tsetRatio q t : ℚ)) / 100 ≤ 1 := by
        rw [div_le_one (by norm_num)]
        exact_mod_cast fz.tsetRatio_le q t
      have p1 : (0 : ℚ) ≤ ((fz.ratio q t : ℚ)) / 100 := by positivity
      have p2 : (0 : ℚ) ≤ ((fz.pratio q t : ℚ)) / 100 := by positivity
      have p3 : (0 : ℚ) ≤ ((fz.tsortRatio q t : ℚ)) / 100 := by positivity
      have p4 : (0 : ℚ) ≤ ((fz.tsetRatio q t : ℚ)) / 100 := by positivity
      constructor <;> nlinarith
  · intro s _
    have : fuzzInst.ratio s s = 100 := levRatioNat_self s
    rw [this]
    norm_num

/-- C2 witness: the bounds theorem applied to the concrete backend at a
concrete identical non-empty pair. -/
theorem blended_score_in_unit_interval_witness :
    ("a" : String) ≠ "" ∧ (fuzzInst.ratio "a" "a" : ℚ) / 100 = 1 :=
  ⟨by decide, (blended_score_in_unit_interval fuzzInst "a" "a").2 "a" (by decide)⟩

/-! ## C4: answer extraction and the sample-row scenario -/

/-- Looking up the key just inserted finds the new value. -/
theorem lookup_dictInsert_self (k v : String) : ∀ (d : List (String × String)),
    List.lookup k (dictInsert d k v) = some v := by
  have aux : ∀ d : List (String × String), (List.lookup k d).isSome →
      List.lookup k (d.map (fun p => if p.1 = k then (k, v) else p)) = some v := by
    intro d
    induction d with
    | nil => intro hp; simp at hp
    | cons a t ih =>
      rcases a with ⟨ak, av⟩
      intro hp
      by_cases hak : ak = k
      · subst hak
        simp [List.lookup_cons]
      · have hbk : (k == ak) = false := beq_eq_false_iff_ne.mpr (Ne.symm hak)
        rw [List.lookup_cons, hbk] at hp
        simp only [List.map_cons, if_neg hak, List.lookup_cons, hbk]
        exact ih hp
  intro d
  unfold dictInsert
  by_cases hp : (List.lookup k d).isSome
  · rw [if_pos hp]
    exact aux d hp
  · rw [if_neg hp, List.lookup_append]
    rw [Option.not_isSome_iff_eq_none] at hp
    simp [hp, List.lookup_cons]

/-- Inserting under one key does not change lookups under another. -/
theorem lookup_dictInsert_ne {k₀ k : String} (v : String) (hne : k₀ ≠ k) :
    ∀ (d : List (String × String)),
    List.lookup k₀ (dictInsert d k v) = List.lookup k₀ d := by
  have hkk : (k₀ == k) = false := beq_eq_false_iff_ne.mpr hne
  have aux : ∀ d : List (String × String),
      List.lookup k₀ (d.map (fun p => if p.1 = k then (k, v) else p)) = List.lookup k₀ d := by
    intro d
    induction d with
    | nil => rfl
    | cons a t ih =>
      rcases a with ⟨ak, av⟩
      by_cases hak : ak = k
      · subst hak
        rw [List.map_cons,
          show (if (ak, av).1 = ak then (ak, v) else (ak, av)) = (ak, v) from if_pos rfl]
        simp only [List.lookup_cons, hkk, ih]
      · simp only [List.map_cons, if_neg hak, List.lookup_cons, ih]
  intro d
  unfold dictInsert
  by_cases hp : (List.lookup k d).isSome
  · rw [if_pos hp]
    exact aux d
  · rw [if_neg hp, List.lookup_append]
    simp [List.lookup_cons, hkk]

/-- Distinct positions below 26 get distinct option labels. -/
theorem optionLabel_inj_lt : ∀ a : Nat, a < 26 → ∀ b : Nat, b < 26 → a ≠ b →
    optionLabel a ≠ optionLabel b := by decide

/-- Building options under labels that all differ from `k` leaves lookups
under `k` unchanged. -/
theorem build_options_lookup_frozen (row : Row) : ∀ (cols : List String) (start : Nat)
    (acc : List (String × String)) (k : String),
    (∀ j, j < cols.length → optionLabel (start + j) ≠ k) →
    List.lookup k (build_options row start cols acc) = List.lookup k acc
  | [], _, _, _, _ => rfl
  | c :: rest, start, acc, k, h => by
    have hrest : ∀ j, j < rest.length → optionLabel (start + 1 + j) ≠ k := by
      intro j hj
      have := h (j + 1) (by simpa using Nat.succ_lt_succ hj)
      rwa [show start + (j + 1) = start + 1 + j by omega] at this
    unfold build_options
    cases hcell : row_cell row c with
    | none => exact build_options_lookup_frozen row rest (start + 1) acc k hrest
    | some w =>
      rw [build_options_lookup_frozen row rest (start + 1) (dictInsert acc (optionLabel start) w) k hrest]
      refine lookup_dictInsert_ne w ?_ acc
      have := h 0 (by simp)
      rw [Nat.add_zero] at this
      exact Ne.symm this

/-- The option built from the answer column at position `i` is found under
label `chr(65 + i)` (positions counted from `start`). -/
theorem build_options_lookup (row : Row) : ∀ (cols : List String) (start : Nat)
    (acc : List (String × String)) (i : Nat) (col v : String),
    cols.get? i = some col → row_cell row col = some v → start + cols.length ≤ 26 →
    List.lookup (optionLabel (start + i)) (build_options row start cols acc) = some v
  | [], _, _, i, _, _, hget, _, _ => by simp at hget
  | c :: rest, start, acc, 0, col, v, hget, hcell, hle => by
    have hc : c = col := by simpa using hget
    subst hc
    unfold build_options
    rw [hcell, Nat.add_zero]
    rw [build_options_lookup_frozen row rest (start + 1) _ (optionLabel start) ?_]
    · exact lookup_dictInsert_self (optionLabel start) v acc
    · intro j hj
      refine optionLabel_inj_lt _ ?_ _ ?_ ?_ <;> simp only [List.length_cons] at hle <;> omega
  | c :: rest, start, acc, i + 1, col, v, hget, hcell, hle => by
    have hget' : rest.get? i = some col := by simpa using hget
    have hle' : start + 1 + rest.length ≤ 26 := by
      simp only [List.length_cons] at hle
      omega
    unfold build_options
    have goal_eq : start + (i + 1) = start + 1 + i := by omega
    cases hc : row_cell row c with
    | none =>
      rw [goal_eq]
      exact build_options_lookup row rest (start + 1) acc i col v hget' hcell hle'
    | some w =>
      rw [goal_eq]
      exact build_options_lookup row rest (start + 1) _ i col v hget' hcell hle'

/-- The options dict of the extracted answer payload is the one built from
the answer columns, whatever the correct-answer branch does. -/
theorem extract_answer_info_options (row : Row) (scfg : SheetConfig) :
    (extract_answer_info row scfg).options = build_options row 0 scfg.answer_columns [] := by
  unfold extract_answer_info
  cases scfg.correct_answer_column with
  | none => rfl
  | some c =>
    dsimp only
    by_cases h : c = ""
    · rw [if_pos h]
    · rw [if_neg h]
      cases row_cell row c with
      | none => rfl
      | some w =>
        dsimp only
        cases List.lookup (pyUpper w) (build_options row 0 scfg.answer_columns []) <;> rfl

/-- The bank, sheet configuration and cache of the sample-data scenario
(`create_sample_excel`'s first row of the `数学问题` sheet: question in
column `A`, options `1/2/3/4` in columns `B..E`, correct answer `B` in
column `F`). -/
def c4Row : Row :=
  [("A", some "1+1等于多少？"), ("B", some "1"), ("C", some "2"),
   ("D", some "3"), ("E", some "4"), ("F", some "B")]

/-- The sample sheet holding `c4Row`. -/
def c4Df : DataFrame := ⟨["A", "B", "C", "D", "E", "F"], [c4Row]⟩

/-- The sample sheet configuration. -/
def c4Sheet : SheetConfig := ⟨some "A", ["B", "C", "D", "E"], some "F"⟩

/-- The sample excel configuration. -/
def c4Cfg : ExcelConfig := ⟨[("数学问题", c4Sheet)], ⟨0.8, 3⟩⟩

/-- The sample cache. -/
def c4Cache : List (String × DataFrame) := [("数学问题", c4Df)]

/-- The single result the sample scenario produces. -/
def c4Res : MatchResult :=
  ⟨"数学问题", 0, "1+1等于多少？", 1, extract_answer_info c4Row c4Sheet, "fuzzy"⟩

/-- Evaluation of the lookup on the sample scenario: the query identical to
the stored question yields exactly one result, a fuzzy match at score
`1.0` (cleaning strips `+` and `？`, so the exact branch finds nothing). -/
theorem c4_search_eval :
    search_question c4Cfg c4Cache fuzzInst "1+1等于多少？" = [c4Res] := by
  have hclean : clean_question_text "1+1等于多少？" = "11等于多少" := by decide
  have h100 : levRatioNat "11等于多少" "11等于多少" = 100 := levRatioNat_self _
  have hscore : calculate_match_score fuzzInst "11等于多少" "11等于多少" = 1 := by
    unfold calculate_match_score
    rw [if_neg (by decide)]
    simp only [fuzzInst, h100]
    norm_num
  have hfzr : fuzzy_results fuzzInst c4Cfg.fuzzy "11等于多少" "数学问题" c4Sheet c4Df "A"
      = [c4Res] := by
    unfold fuzzy_results
    simp only [show c4Df.rows.enum = [(0, c4Row)] from rfl, List.filterMap_cons,
      List.filterMap_nil]
    rw [show row_str c4Row "A" = "1+1等于多少？" from rfl]
    rw [if_neg (show ¬("1+1等于多少？" = "" ∨ "1+1等于多少？" = "nan") by decide)]
    rw [hclean, hscore]
    rw [if_pos (show c4Cfg.fuzzy.threshold ≤ (1 : ℚ) by norm_num [c4Cfg])]
    rfl
  have hexact : exact_search_in_sheet "11等于多少" "数学问题" c4Sheet c4Df = [] := by decide
  have hsis : search_in_sheet fuzzInst c4Cfg.fuzzy "1+1等于多少？" "数学问题" c4Sheet c4Df
      = [c4Res] := by
    unfold search_in_sheet
    rw [show c4Sheet.question_column = some "A" from rfl]
    dsimp only
    rw [if_neg (show ¬("A" = "") by decide), if_pos (show "A" ∈ c4Df.columns by decide)]
    rw [hclean, hfzr, hexact]
    simp
  unfold search_question
  rw [show c4Cfg.sheets_config = [("数学问题", c4Sheet)] from rfl, gather_cons, gather_nil,
    List.append_nil]
  rw [show sheet_results c4Cache fuzzInst c4Cfg.fuzzy "1+1等于多少？" ("数学问题", c4Sheet)
      = search_in_sheet fuzzInst c4Cfg.fuzzy "1+1等于多少？" "数学问题" c4Sheet c4Df by
    unfold sheet_results
    rw [show List.lookup "数学问题" c4Cache = some c4Df from rfl]]
  rw [hsis]
  rfl

/-- C4 counterexample: on the sample bank row identical to the query
`"1+1等于多少？"`, the lookup's best (and only) match is a fuzzy match —
cleaning strips `+` and `？`, so the cleaned query is not a substring of
the stored question and the exact branch finds nothing — and the resolved
answer text is option `B`'s text `"2"`, not `"1"`. -/
theorem answer_extraction_scenario_counterexample :
    (search_question c4Cfg c4Cache fuzzInst "1+1等于多少？").map
        (fun r => r.matched_method) = ["fuzzy"]
    ∧ ("fuzzy" : String) ≠ "exact"
    ∧ (search_question c4Cfg c4Cache fuzzInst "1+1等于多少？").map
        (fun r => r.match_score) = [1]
    ∧ (search_question c4Cfg c4Cache fuzzInst "1+1等于多少？").map
        (fun r => r.answer_info.answer_text) = ["2"]
    ∧ ("2" : String) ≠ "1"
    ∧ exact_search_in_sheet (clean_question_text "1+1等于多少？") "数学问题" c4Sheet c4Df
        = [] := by
  rw [c4_search_eval]
  refine ⟨rfl, by decide, rfl, by decide, by decide, by decide⟩

/-- C4 (amended): answer extraction maps the answer column at position `i`
to option letter `chr(65 + i)`, and resolves a correct-answer value whose
uppercase form is one of those labels to that option's text, keeping the
raw value otherwise; on the sample-row scenario the best match is a fuzzy
match with score `1.0` and resolved answer text `"2"`. -/
theorem answer_extraction_amended (scfg : SheetConfig) (row : Row) (i : Nat) (col v : String)
    (hlen : scfg.answer_columns.length ≤ 26)
    (hcol : scfg.answer_columns.get? i = some col)
    (hv : row_cell row col = some v) :
    List.lookup (optionLabel i) (extract_answer_info row scfg).options = some v
    ∧ (∀ ccol w, scfg.correct_answer_column = some ccol → ccol ≠ "" →
        row_cell row ccol = some w →
        (extract_answer_info row scfg).correct_answer = w ∧
        (extract_answer_info row scfg).answer_text
          = (List.lookup (pyUpper w) (extract_answer_info row scfg).options).getD w)
    ∧ (search_question c4Cfg c4Cache fuzzInst "1+1等于多少？").map
        (fun r => (r.match_score, r.matched_method, r.answer_info.answer_text))
        = [(1, "fuzzy", "2")] := by
  refine ⟨?_, ?_, by rw [c4_search_eval]; decide⟩
  · rw [extract_answer_info_options]
    have := build_options_lookup row scfg.answer_columns 0 [] i col v hcol hv
      (by simpa using hlen)
    simpa using this
  · intro ccol w hcc h0 hw
    rw [extract_answer_info_options]
    unfold extract_answer_info
    rw [hcc]
    dsimp only
    rw [if_neg h0, hw]
    dsimp only
    cases hlk : List.lookup (pyUpper w) (build_options row 0 scfg.answer_columns []) with
    | none => simp [hlk]
    | some t => simp [hlk]

/-- C4 witness: the amended extraction theorem applied to a concrete sheet
configuration and row. -/
theorem answer_extraction_amended_witness :
    List.lookup (optionLabel 0)
      (extract_answer_info [("Q", some "こんにちは"), ("B", some "1"), ("C", some "2"),
        ("F", some "B")] wsCfg).options = some "1" :=
  (answer_extraction_amended wsCfg
    [("Q", some "こんにちは"), ("B", some "1"), ("C", some "2"), ("F", some "B")]
    0 "B" "1" (by decide) rfl rfl).1

/-! ## Parser facts (C5, C6) -/

theorem leadMatch_head {p : Char} {ps l : List Char} (h : leadMatch (p :: ps) l = true) :
    ∃ t, l = p :: t := by
  cases l with
  | nil => simp [leadMatch] at h
  | cons c t =>
    simp only [leadMatch, Bool.and_eq_true, beq_iff_eq] at h
    exact ⟨t, by rw [h.1]⟩

theorem not_starts_of_head {l : List Char} {p : Char} (q : Char) (qs : List Char)
    (hh : ∃ t, l = p :: t) (hne : q ≠ p) : leadMatch (q :: qs) l = false := by
  rcases hh with ⟨t, rfl⟩
  simp [leadMatch, hne]

/-- The answer field after one loop iteration: set from an answer-labelled
line, untouched otherwise. -/
theorem parse_line_answer (acc : ParsedAnswer) (raw : String) :
    (parse_line acc raw).answer
      = if isAnswerLine (pyStripS raw) then valAfterColon (pyStripS raw)
        else acc.answer := by
  unfold parse_line
  dsimp only
  by_cases ha : isAnswerLine (pyStripS raw) = true
  · have ha' : (startsWithS (pyStripS raw) "答え:"
        || startsWithS (pyStripS raw) "答案:") = true := ha
    have hhead : ∃ t, (pyStripS raw).toList = '答' :: t := by
      rcases (Bool.or_eq_true _ _) ▸ ha' with h | h
      · exact leadMatch_head (show leadMatch ('答' :: "え:".toList) _ = true from h)
      · exact leadMatch_head (show leadMatch ('答' :: "案:".toList) _ = true from h)
    have h1 : startsWithS (pyStripS raw) "思考過程:" = false :=
      not_starts_of_head '思' "考過程:".toList hhead (by decide)
    have h2 : startsWithS (pyStripS raw) "思考过程:" = false :=
      not_starts_of_head '思' "考过程:".toList hhead (by decide)
    rw [if_neg (by simp [h1, h2]), if_pos ha', if_pos ha]
  · rw [if_neg ha]
    have ha' : (startsWithS (pyStripS raw) "答え:"
        || startsWithS (pyStripS raw) "答案:") = false := by
      simpa [isAnswerLine] using ha
    split
    · rfl
    · rw [if_neg (by simp [ha'] :
        ¬ (startsWithS (pyStripS raw) "答え:" || startsWithS (pyStripS raw) "答案:") = true)]
      split
      · rfl
      · split
        · rfl
        · split <;> rfl

/-- The correct-option field after one loop iteration: set from a legacy
correct-answer line, untouched otherwise. -/
theorem parse_line_correct (acc : ParsedAnswer) (raw : String) :
    (parse_line acc raw).correct_option
      = if isCorrectLine (pyStripS raw) then valAfterColon (pyStripS raw)
        else acc.correct_option := by
  unfold parse_line
  dsimp only
  by_cases hc : isCorrectLine (pyStripS raw) = true
  · have hc' : (startsWithS (pyStripS raw) "正解:"
        || startsWithS (pyStripS raw) "正确答案:") = true := hc
    have hhead : ∃ t, (pyStripS raw).toList = '正' :: t := by
      rcases (Bool.or_eq_true _ _) ▸ hc' with h | h
      · exact leadMatch_head (show leadMatch ('正' :: "解:".toList) _ = true from h)
      · exact leadMatch_head (show leadMatch ('正' :: "确答案:".toList) _ = true from h)
    have h1 : startsWithS (pyStripS raw) "思考過程:" = false :=
      not_starts_of_head '思' "考過程:".toList hhead (by decide)
    have h2 : startsWithS (pyStripS raw) "思考过程:" = false :=
      not_starts_of_head '思' "考过程:".toList hhead (by decide)
    have h3 : startsWithS (pyStripS raw) "答え:" = false :=
      not_starts_of_head '答' "え:".toList hhead (by decide)
    have h4 : startsWithS (pyStripS raw) "答案:" = false :=
      not_starts_of_head '答' "案:".toList hhead (by decide)
    have h5 : startsWithS (pyStripS raw) "問題の種類:" = false :=
      not_starts_of_head '問' "題の種類:".toList hhead (by decide)
    have h6 : startsWithS (pyStripS raw) "问题类型:" = false :=
      not_starts_of_head '问' "题类型:".toList hhead (by decide)
    have h7 : startsWithS (pyStripS raw) "解法・考え方:" = false :=
      not_starts_of_head '解' "法・考え方:".toList hhead (by decide)
    have h8 : startsWithS (pyStripS raw) "解答过程:" = false :=
      not_starts_of_head '解' "答过程:".toList hhead (by decide)
    rw [if_neg (by simp [h1, h2]), if_neg (by simp [h3, h4]), if_neg (by simp [h5, h6]),
      if_neg (by simp [h7, h8]), if_pos hc', if_pos hc]
  · rw [if_neg hc]
    have hc' : (startsWithS (pyStripS raw) "正解:"
        || startsWithS (pyStripS raw) "正确答案:") = false := by
      simpa [isCorrectLine] using hc
    split
    · rfl
    · split
      · rfl
      · split
        · rfl
        · split
          · rfl
          · rw [if_neg (by simp [hc'] :
              ¬ (startsWithS (pyStripS raw) "正解:"
                  || startsWithS (pyStripS raw) "正确答案:") = true)]

/-- The value contributed by the last line matching a label (the loop
overwrites the field on every match, so the last match wins). -/
def last_label_value (lab : String → Bool) : List String → Option String
  | [] => none
  | raw :: rest =>
    match last_label_value lab rest with
    | some v => some v
    | none =>
      if lab (pyStripS raw) then some (valAfterColon (pyStripS raw)) else none

theorem last_label_value_cons (lab : String → Bool) (raw : String) (rest : List String) :
    last_label_value lab (raw :: rest)
      = match last_label_value lab rest with
        | some v => some v
        | none =>
          if lab (pyStripS raw) then some (valAfterColon (pyStripS raw)) else none := rfl

theorem foldl_parse_answer : ∀ (lines : List String) (acc : ParsedAnswer),
    (lines.foldl parse_line acc).answer
      = (last_label_value isAnswerLine lines).getD acc.answer
  | [], _ => rfl
  | raw :: rest, acc => by
    rw [List.foldl_cons, foldl_parse_answer rest (parse_line acc raw),
      last_label_value_cons]
    cases hv : last_label_value isAnswerLine rest with
    | some v => rfl
    | none =>
      dsimp only
      rw [parse_line_answer]
      by_cases h : isAnswerLine (pyStripS raw) = true
      · simp [h]
      · simp only [Bool.not_eq_true] at h
        simp [h]

theorem foldl_parse_correct : ∀ (lines : List String) (acc : ParsedAnswer),
    (lines.foldl parse_line acc).correct_option
      = (last_label_value isCorrectLine lines).getD acc.correct_option
  | [], _ => rfl
  | raw :: rest, acc => by
    rw [List.foldl_cons, foldl_parse_correct rest (parse_line acc raw),
      last_label_value_cons]
    cases hv : last_label_value isCorrectLine rest with
    | some v => rfl
    | none =>
      dsimp only
      rw [parse_line_correct]
      by_cases h : isCorrectLine (pyStripS raw) = true
      · simp [h]
      · simp only [Bool.not_eq_true] at h
        simp [h]

theorem last_label_value_none {lab : String → Bool} :
    ∀ {lines : List String}, (∀ l ∈ lines, lab (pyStripS l) = false) →
    last_label_value lab lines = none
  | [], _ => rfl
  | raw :: rest, h => by
    rw [last_label_value_cons,
      last_label_value_none (fun l hl => h l (List.mem_cons_of_mem _ hl))]
    simp [h raw (List.mem_cons_self _ _)]

/-- The fallback answer: the last non-blank stripped line, or the whole
trimmed response when every line is blank. -/
def fallback_answer (resp : String) : String :=
  match (((respLines resp).map pyStripS).filter (fun l => l ≠ "")).getLast? with
  | some last => last
  | none => String.mk (pyStrip resp.toList)

/-- C6: with no answer-labelled and no correct-option-labelled line, the
parser falls back to the last non-blank line (or the trimmed response) and
extracts the option letter from it via the two regex patterns; in
particular a labelled `答え: 42` response yields answer `"42"`, and a
response ending in a bare `C` yields answer `"C"` and option `"C"`. -/
theorem parser_fallback_and_option_extraction (resp : String)
    (h : (respLines resp).all
        (fun l => !(isAnswerLine (pyStripS l)) && !(isCorrectLine (pyStripS l))) = true) :
    ((parse_answer resp).answer = fallback_answer resp
      ∧ (parse_answer resp).correct_option = extract_option (fallback_answer resp))
    ∧ (parse_answer "思考過程: 簡単\n答え: 42").answer = "42"
    ∧ (parse_answer "よくわからない\nC").answer = "C"
    ∧ (parse_answer "よくわからない\nC").correct_option = "C" := by
  refine ⟨?_, by decide, by decide, by decide⟩
  have hall := List.all_eq_true.mp h
  have hA : ∀ l ∈ respLines resp, isAnswerLine (pyStripS l) = false := by
    intro l hl
    have := hall l hl
    simp only [Bool.and_eq_true, Bool.not_eq_true'] at this
    exact this.1
  have hC : ∀ l ∈ respLines resp, isCorrectLine (pyStripS l) = false := by
    intro l hl
    have := hall l hl
    simp only [Bool.and_eq_true, Bool.not_eq_true'] at this
    exact this.2
  unfold parse_answer
  dsimp only
  set F := (respLines resp).foldl parse_line
    (⟨"", "", "", "", 9 / 10⟩ : ParsedAnswer) with hF
  have hFa : F.answer = "" := by
    rw [hF, foldl_parse_answer, last_label_value_none hA]
    rfl
  have hFc : F.correct_option = "" := by
    rw [hF, foldl_parse_correct, last_label_value_none hC]
    rfl
  rw [if_pos (show F.answer = "" ∧ F.correct_option = "" from ⟨hFa, hFc⟩)]
  unfold fallback_answer
  cases hlast : (((respLines resp).map pyStripS).filter (fun l => l ≠ "")).getLast? with
  | some last =>
    dsimp only
    split
    · exact ⟨rfl, rfl⟩
    · rename_i hcc
      exact absurd hFc hcc
  | none =>
    dsimp only
    split
    · exact ⟨rfl, rfl⟩
    · rename_i hcc
      exact absurd hFc hcc

/-- C6 witness: the fallback theorem applied to a concrete label-free
response. -/
theorem parser_fallback_witness :
    (parse_answer "よくわからない\nC").answer = fallback_answer "よくわからない\nC" :=
  ((parser_fallback_and_option_extraction "よくわからない\nC" (by decide)).1).1

/-! ## C7: the solver boundary never raises -/

/-- C7: over every call outcome — no response (timeout, network error or
non-200 status), an untruthy or key-less response, a malformed response
body (an exception caught by the handler), or a well-shaped response —
`solve_question` returns a tagged result: success carries a parsed answer
and no error, failure carries an error reason and no answer, and the
source tag is always `"api"`. -/
theorem solver_never_raises (r? : Option Jv) :
    (((solve_question r?).success = true ∧ (solve_question r?).answer.isSome = true
        ∧ (solve_question r?).error = none)
      ∨ ((solve_question r?).success = false ∧ (solve_question r?).error.isSome = true
        ∧ (solve_question r?).answer = none))
    ∧ (solve_question r?).source = "api" := by
  unfold solve_question
  cases r? with
  | none => exact ⟨Or.inr ⟨rfl, rfl, rfl⟩, rfl⟩
  | some v =>
    dsimp only
    by_cases ht : truthy v = true
    · rw [if_pos ht]
      cases hk : hasKey v "choices" with
      | error e => exact ⟨Or.inr ⟨rfl, rfl, rfl⟩, rfl⟩
      | ok b =>
        cases b with
        | false => exact ⟨Or.inr ⟨rfl, rfl, rfl⟩, rfl⟩
        | true =>
          cases hc : extractContent v with
          | error e => exact ⟨Or.inr ⟨rfl, rfl, rfl⟩, rfl⟩
          | ok content => exact ⟨Or.inl ⟨rfl, rfl, rfl⟩, rfl⟩
    · rw [if_neg ht]
      exact ⟨Or.inr ⟨rfl, rfl, rfl⟩, rfl⟩

/-! ## C8: transport retry policy -/

/-- A non-200 status delivered to `_call_api` yields `None`. -/
theorem call_api_result_non200 (s : Nat) (body : Jv) (h : s ≠ 200) :
    call_api_result (some s) body = none := by
  unfold call_api_result
  split
  · rename_i heq
    simp only [Option.some.injEq] at heq
    exact absurd heq h
  · rfl

/-- C8 counterexample: the solver's requests are POSTs, and the configured
retry machinery checks its idempotent-method allowlist before the status
forcelist, so a 500 is never retried: on the status sequence 500, 500, 200
the session delivers the first 500 after a single attempt and the solver
fails, instead of the claimed success within three attempts. -/
theorem transport_retry_counterexample :
    session_attempts "POST" retry_total [500, 500, 200] = (some 500, 1)
    ∧ (solve_question (call_api_result
        (session_attempts "POST" retry_total [500, 500, 200]).1 wellBody)).success = false
    ∧ is_retry "POST" 500 = false
    ∧ 500 ∈ status_forcelist :=
  ⟨by decide, by decide, by decide, by decide⟩

/-- C8 (amended): the session is configured with retries on statuses
429/500/502/503/504, an exponential backoff factor of 1 and a 30-second
request timeout, but the retry predicate consults the idempotent-method
allowlist (HEAD/GET/PUT/DELETE/OPTIONS/TRACE) before the status
forcelist, and the solver only issues POSTs — so no HTTP status is ever
retried: every status is delivered on the first attempt, and any non-200
status (a 401 as much as a 500) makes the solver fail immediately. -/
theorem transport_retry_amended :
    (∀ m s, is_retry m s = true → is_method_retryable m = true)
    ∧ is_method_retryable "POST" = false
    ∧ (∀ s sts, session_attempts "POST" retry_total (s :: sts) = (some s, 1))
    ∧ (∀ s body, s ≠ 200 → solve_question (call_api_result (some s) body)
        = ⟨false, some "API响应格式错误", none, none, "api"⟩)
    ∧ (∀ m s sts, is_retry m s = false →
        session_attempts m retry_total (s :: sts) = (some s, 1))
    ∧ session_attempts "POST" retry_total [401] = (some 401, 1)
    ∧ session_attempts "POST" retry_total [500, 500, 200] = (some 500, 1)
    ∧ api_timeout = 30
    ∧ status_forcelist = [429, 500, 502, 503, 504]
    ∧ retry_total = 3
    ∧ (∀ k, backoff_time 1 (k + 2) = min 120 (2 ^ (k + 1))) := by
  refine ⟨?_, by decide, ?_, ?_, ?_, by decide, by decide, rfl, rfl, rfl, ?_⟩
  · intro m s h
    exact ((Bool.and_eq_true _ _) ▸ h).1
  · intro s sts
    have hf : is_retry "POST" s = false := by
      unfold is_retry
      rw [show is_method_retryable "POST" = false by decide]
      rfl
    unfold session_attempts
    rw [if_neg (by simp [hf])]
  · intro s body h
    rw [call_api_result_non200 s body h]
    rfl
  · intro m s sts h
    unfold session_attempts
    rw [if_neg (by simp [h])]
  · intro k
    unfold backoff_time
    rw [if_neg (by omega)]
    norm_num

/-- C8 witness: the amended retry theorem applied at a concrete non-200
status. -/
theorem transport_retry_amended_witness :
    solve_question (call_api_result (some 401) wellBody)
      = ⟨false, some "API响应格式错误", none, none, "api"⟩ :=
  transport_retry_amended.2.2.2.1 401 wellBody (by decide)

/-! ## C9: the trigger handler's busy flag -/

/-- C9: a trigger arriving while the busy flag is set runs no pipeline
step and is dropped with a status notification (state and counters
untouched, nothing queued); on an accepted trigger the handler runs the
pipeline and — on success, structured failure, `None`, or an internal
exception — returns normally with the busy flag reset to `false`, showing
an error message on each failure path. -/
theorem trigger_busy_drop_and_flag_reset (st : AppStats) (out : PipeOutcome) :
    (on_hotkey_triggered true st out
        = (true, st, ⟨false, true, none⟩))
    ∧ ((on_hotkey_triggered false st out).1 = false)
    ∧ ((on_hotkey_triggered false st out).2.2.ran_pipeline = true)
    ∧ (∀ m, (on_hotkey_triggered false st (.exn m)).2.2.error_shown
        = some ("处理异常: " ++ m))
    ∧ (∀ r, r.success = false →
        (on_hotkey_triggered false st (.ret (some r))).2.2.error_shown
          = some ("处理失败: " ++ r.error.getD "未知错误"))
    ∧ ((on_hotkey_triggered false st (.ret none)).2.2.error_shown
        = some ("处理失败: " ++ "处理失败")) := by
  refine ⟨rfl, ?_, ?_, fun m => rfl, ?_, rfl⟩
  · unfold on_hotkey_triggered
    rw [if_neg (by decide : ¬(false = true))]
    cases out with
    | ret r =>
      cases r with
      | none => rfl
      | some pr =>
        dsimp only
        split <;> rfl
    | exn m => rfl
  · unfold on_hotkey_triggered
    rw [if_neg (by decide : ¬(false = true))]
    cases out with
    | ret r =>
      cases r with
      | none => rfl
      | some pr =>
        dsimp only
        split <;> rfl
    | exn m => rfl
  · intro r hr
    unfold on_hotkey_triggered
    rw [if_neg (by decide : ¬(false = true))]
    dsimp only
    rw [if_neg (by simp [hr])]

/-- C9 witness: the handler theorem applied at a concrete structured
failure. -/
theorem trigger_busy_drop_and_flag_reset_witness :
    (on_hotkey_triggered false ⟨0, 0, 0⟩ (.ret (some ⟨false, none⟩))).2.2.error_shown
      = some "处理失败: 未知错误" :=
  (trigger_busy_drop_and_flag_reset ⟨0, 0, 0⟩ (.ret none)).2.2.2.2.1 ⟨false, none⟩ rfl

end SpiAuto
